import Mathlib

set_option linter.unusedVariables false

/-!
Shallow embedding of the Telegram referral bot (src/main.py): identity store,
referral ledger, balance engine, redemption engine and the reporting views,
together with theorems settling the specification claims C1 to C10.

Conventions. SQLite tables are modelled as Lean lists in insertion (rowid)
order; the users table has INTEGER PRIMARY KEY user_id, which aliases rowid,
so full scans of users are modelled as the list sorted by user_id. The
timestamp columns (created_at, first_seen) play no role in any claim and are
omitted. Python integers are unbounded and Telegram ids fit easily, so ids
and costs are Int. Every database statement sits behind an await and is thus
a potential suspension point; for the concurrency claim C1 the two database
statements of mark_credited are split into explicit phases so interleavings
of concurrent calls can be expressed.
-/

structure UserRow where
  user_id : Int
  username : String
deriving Repr, DecidableEq

structure Referral where
  referrer_id : Int
  referee_id : Int
  credited : Bool
deriving Repr, DecidableEq

structure Redemption where
  user_id : Int
  reward_code : String
  cost : Int
deriving Repr, DecidableEq

/-- The three durable tables of init_db (src/main.py lines 27 to 55).
The schema constraints referee_id UNIQUE on referrals and
UNIQUE(user_id, reward_code) on redemptions are enforced in the
operations below exactly where the SQL statements hit them. -/
structure Store where
  users : List UserRow
  referrals : List Referral
  redemptions : List Redemption
deriving Repr, DecidableEq

/-- A reward catalog entry, the value type of the REWARDS dict (lines 17 to 24). -/
structure Reward where
  label : String
  cost : Int
  payload : String
  repeatable : Bool
deriving Repr, DecidableEq

/-- The shipped catalog REWARDS (src/main.py lines 17 to 24): one entry. -/
def REWARDS : List (String × Reward) :=
  [("vip1",
    { label := "🎁 Unlock VIP Pack (2 points)",
      cost := 2,
      payload := "https://t.me/lexxis00",
      repeatable := true })]

/-- Dict lookup REWARDS.get(code). -/
def lookupReward (code : String) : Option Reward :=
  (REWARDS.find? (fun p => p.1 == code)).map (fun p => p.2)

/-- upsert_user (lines 57 to 61): INSERT OR IGNORE then UPDATE username.
Net effect: ensure the row exists and its username equals the latest value.
The username argument is already defaulted to the empty string by the caller
(user.username or ""). -/
def upsert_user (s : Store) (uid : Int) (uname : String) : Store :=
  if s.users.any (fun u => u.user_id == uid) then
    { s with users := s.users.map (fun u =>
        if u.user_id == uid then { u with username := uname } else u) }
  else
    { s with users := s.users ++ [⟨uid, uname⟩] }

/-- get_earned (lines 63 to 67): SELECT COUNT of credited referrals of uid. -/
def get_earned (s : Store) (uid : Int) : Int :=
  Int.ofNat (s.referrals.countP (fun r => r.referrer_id == uid && r.credited))

/-- get_spent (lines 69 to 73): COALESCE(SUM(cost), 0) over redemptions of uid. -/
def get_spent (s : Store) (uid : Int) : Int :=
  ((s.redemptions.filter (fun r => r.user_id == uid)).map (fun r => r.cost)).sum

/-- get_balance (lines 75 to 78): earned, spent, max(0, earned - spent). -/
def get_balance (s : Store) (uid : Int) : Int × Int × Int :=
  (get_earned s uid, get_spent s uid, max 0 (get_earned s uid - get_spent s uid))

/-- add_pending_referral (lines 80 to 88): drop self referrals, then
INSERT OR IGNORE; the UNIQUE constraint on referee_id makes the insert a
no-op when any edge for the referee already exists. -/
def add_pending_referral (s : Store) (referrer_id referee_id : Int) : Store :=
  if referrer_id == referee_id then s
  else if s.referrals.any (fun r => r.referee_id == referee_id) then s
  else { s with referrals := s.referrals ++ [⟨referrer_id, referee_id, false⟩] }

/-- First database statement of mark_credited (lines 92 to 96): the SELECT
plus the two early-return guards computed from the fetched row. Returns the
referrer id exactly when a pending (uncredited) edge exists. -/
def mc_phase1 (s : Store) (referee_id : Int) : Option Int :=
  match s.referrals.find? (fun r => r.referee_id == referee_id) with
  | none => none
  | some r => if r.credited then none else some r.referrer_id

/-- Second database statement of mark_credited (line 97): the UPDATE setting
credited = 1 on every row of the referee. -/
def mc_phase2 (s : Store) (referee_id : Int) : Store :=
  { s with referrals := s.referrals.map (fun r =>
      if r.referee_id == referee_id then { r with credited := true } else r) }

/-- mark_credited (lines 90 to 99) as a single sequential call: read the
edge, return none when absent or already credited, otherwise flip the flag
and return the referrer id. -/
def mark_credited (s : Store) (referee_id : Int) : Option Int × Store :=
  match mc_phase1 s referee_id with
  | none => (none, s)
  | some rid => (some rid, mc_phase2 s referee_id)

/-- Two concurrent mark_credited calls for one referee under the schedule
read1, read2, write1, write2: both SELECTs run before either UPDATE commits.
Each database statement is awaited on its own connection, so this
interleaving is realisable. A caller performs its write only when its own
read observed a pending edge. Result: the two return values and the final
store. -/
def mark_credited_concurrent_RRWW (s : Store) (referee_id : Int) :
    Option Int × Option Int × Store :=
  let r1 := mc_phase1 s referee_id
  let r2 := mc_phase1 s referee_id
  let s1 := if r1.isSome then mc_phase2 s referee_id else s
  let s2 := if r2.isSome then mc_phase2 s1 referee_id else s1
  (r1, r2, s2)

/-- Outcomes of cb_redeem, one per reply branch (lines 224 to 260).
insertConflict is the except-branch reply at line 257,
"Looks like you already redeemed this.", distinct from the precheck reply
alreadyRedeemed at line 242, "You already unlocked this reward earlier." -/
inductive RedeemOutcome
  | unknownReward
  | alreadyRedeemed
  | insufficientBalance (needed available : Int)
  | insertConflict
  | success (payload : String)
deriving Repr, DecidableEq

/-- True when a redemption row for (uid, code) exists (the SELECT at line 239). -/
def hasRedemption (s : Store) (uid : Int) (code : String) : Bool :=
  s.redemptions.any (fun r => r.user_id == uid && r.reward_code == code)

/-- cb_redeem (lines 224 to 260) with a fault oracle for the commit. The
storageFault flag injects an environmental (non-uniqueness) exception at the
INSERT; the plain INSERT also raises whenever a row for (uid, code) already
exists, by the UNIQUE(user_id, reward_code) constraint of the schema. Both
raises land in the blanket except branch (lines 256 to 258), which replies
with the insertConflict message and leaves the store unchanged. -/
def cb_redeem_f (storageFault : Bool) (s : Store) (uid : Int) (code : String) :
    RedeemOutcome × Store :=
  match lookupReward code with
  | none => (.unknownReward, s)
  | some reward =>
    let bal := (get_balance s uid).2.2
    let cost := reward.cost
    let exRec := hasRedemption s uid code
    if exRec && !reward.repeatable then (.alreadyRedeemed, s)
    else if bal < cost then (.insufficientBalance cost bal, s)
    else if storageFault || exRec then (.insertConflict, s)
    else (.success reward.payload,
          { s with redemptions := s.redemptions ++ [⟨uid, code, cost⟩] })

/-- cb_redeem in a fault-free run. -/
def cb_redeem (s : Store) (uid : Int) (code : String) : RedeemOutcome × Store :=
  cb_redeem_f false s uid code

/-- ASCII lowercase of one character. Both Python str.lower and SQLite
lower() act like this on the ASCII range; the handles and numeric arguments
the claims exercise are ASCII. -/
def lowerChar (c : Char) : Char :=
  if 65 ≤ c.toNat && c.toNat ≤ 90 then Char.ofNat (c.toNat + 32) else c

/-- Python str.lower and SQLite lower(), on the ASCII range. -/
def pyLower (s : String) : String := ⟨s.data.map lowerChar⟩

def isSpaceChar (c : Char) : Bool :=
  c == ' ' || c == '\t' || c == '\n' || c == '\r'

def dropSpaces : List Char → List Char
  | [] => []
  | c :: t => if isSpaceChar c then dropSpaces t else c :: t

/-- Whitespace stripping at both ends, as int() applies before parsing. -/
def stripChars (l : List Char) : List Char :=
  (dropSpaces (dropSpaces l).reverse).reverse

def digitVal? (c : Char) : Option Nat :=
  if 48 ≤ c.toNat && c.toNat ≤ 57 then some (c.toNat - 48) else none

def digitsAux (acc : Nat) : List Char → Option Nat
  | [] => some acc
  | c :: t =>
    match digitVal? c with
    | some d => digitsAux (10 * acc + d) t
    | none => none

def digitsVal? : List Char → Option Nat
  | [] => none
  | c :: t => digitsAux 0 (c :: t)

/-- Python int(arg) on the forms the handlers receive: optional surrounding
whitespace, optional sign, one or more decimal digits. (Digit-group
underscores of Python 3 are not modelled; no claim exercises them.) -/
def pyInt? (s : String) : Option Int :=
  match stripChars s.data with
  | [] => none
  | c :: t =>
    if c == '-' then (digitsVal? t).map (fun n => -(Int.ofNat n))
    else if c == '+' then (digitsVal? t).map Int.ofNat
    else (digitsVal? (c :: t)).map Int.ofNat

/-- The startswith check on the at sign (line 126). -/
def startsWithAt (s : String) : Bool :=
  match s.data with
  | [] => false
  | c :: _ => c == '@'

/-- The slice arg[1:] (line 127); the first character is ASCII here. -/
def dropFirst (s : String) : String := ⟨s.data.drop 1⟩

/-- Display label used by resolve_target_user (lines 134 and 143):
at-handle when a non-empty handle is known, else the placeholder. -/
def userLabel (uname : String) (uid : Int) : String :=
  if uname ≠ "" then "@" ++ uname else "User " ++ toString uid

/-- Stable insertion of one element: the new element goes before the first
list element it compares le to, so earlier list elements stay first among
ties. -/
def ordInsert {α : Type} (le : α → α → Bool) (a : α) : List α → List α
  | [] => [a]
  | b :: l => if le a b then a :: b :: l else b :: ordInsert le a l

/-- Stable insertion sort, the model of SQL ORDER BY: rows tied on every
sort key keep their scan order. -/
def sortBy {α : Type} (le : α → α → Bool) : List α → List α
  | [] => []
  | a :: l => ordInsert le a (sortBy le l)

/-- Scan order of the users table: user_id is INTEGER PRIMARY KEY, an alias
of rowid, so a full scan yields rows in ascending user_id order. -/
def usersByRowid (s : Store) : List UserRow :=
  sortBy (fun a b => decide (a.user_id ≤ b.user_id)) s.users

/-- resolve_target_user (lines 123 to 144). Empty references resolve to
none; at-references look the lowered handle up case-insensitively (LIMIT 1
over the scan) and resolve to none when no row matches; other references
must parse as an integer, and then always resolve, falling back to the empty
handle (hence the placeholder label) when no user row exists. -/
def resolve_target_user (s : Store) (arg : String) : Option (Int × String) :=
  if arg = "" then none
  else if startsWithAt arg then
    match (usersByRowid s).find?
        (fun u => pyLower u.username == pyLower (dropFirst arg)) with
    | none => none
    | some u => some (u.user_id, userLabel u.username u.user_id)
  else
    match pyInt? arg with
    | none => none
    | some uid =>
      let uname :=
        match (usersByRowid s).find? (fun u => u.user_id == uid) with
        | some u => u.username
        | none => ""
      some (uid, userLabel uname uid)

/-- Store effect of the start handler (lines 147 to 168): upsert the user,
then, when a first argument is present, reply balances on "points", else
try to parse it as the referrer id; the truthiness test at line 167 skips
add_pending_referral when the parse failed or produced 0. -/
def start_effect (s : Store) (uid : Int) (uname : String) (args : List String) :
    Store :=
  let s1 := upsert_user s uid uname
  match args with
  | [] => s1
  | a :: _ =>
    let arg := pyLower a
    if arg = "points" then s1
    else
      match pyInt? arg with
      | some rid => if rid ≠ 0 then add_pending_referral s1 rid uid else s1
      | none => s1

/-- A row of the admin table and CSV export queries (lines 485 to 502 and
530 to 545): user, latest handle, aggregate earned and spent, and the raw
balance column earned minus spent (not floored at zero). -/
structure Row where
  user_id : Int
  username : String
  earned : Int
  spent : Int
  balance : Int
deriving Repr, DecidableEq

/-- One row of the LEFT JOIN: aggregates COALESCEd to zero for users with
no credited referrals or no redemptions, balance the raw difference. -/
def mkRow (s : Store) (u : UserRow) : Row :=
  { user_id := u.user_id,
    username := u.username,
    earned := get_earned s u.user_id,
    spent := get_spent s u.user_id,
    balance := get_earned s u.user_id - get_spent s u.user_id }

/-- The joined rows before ORDER BY, in users-scan (user_id ascending) order. -/
def baseRows (s : Store) : List Row :=
  (usersByRowid s).map (mkRow s)

/-- ORDER BY balance DESC, earned DESC, user_id ASC of table_cmd (line 500). -/
def cmpTable (a b : Row) : Bool :=
  decide (b.balance < a.balance ∨
    (a.balance = b.balance ∧
      (b.earned < a.earned ∨ (a.earned = b.earned ∧ a.user_id ≤ b.user_id))))

/-- ORDER BY balance DESC, earned DESC of exportcsv_cmd (line 544): no
user_id key; ties on both keys keep scan order under the stable sort. -/
def cmpExport (a b : Row) : Bool :=
  decide (b.balance < a.balance ∨ (a.balance = b.balance ∧ b.earned ≤ a.earned))

/-- The full ordered listing behind the paginated admin table (table_cmd,
lines 485 to 502); pagination only slices this list with LIMIT and OFFSET. -/
def table_rows (s : Store) : List Row :=
  sortBy cmpTable (baseRows s)

/-- The LIMIT size OFFSET (page - 1) * size slice shown by /table. -/
def table_page (s : Store) (page size : Nat) : List Row :=
  ((table_rows s).drop ((page - 1) * size)).take size

/-- The full CSV export listing of exportcsv_cmd (lines 529 to 546). -/
def exportcsv_rows (s : Store) : List Row :=
  sortBy cmpExport (baseRows s)

/-- Available points of a row as the spec defines them: floored at zero. -/
def availOf (r : Row) : Int := max 0 (r.earned - r.spent)

/-- Modelled from the spec (section 4.5, claim C8): the claimed listing
order, available descending, then earned descending, then user_id
ascending. This definition follows the words of the spec, to be compared
with the order the code actually uses. -/
def cmpClaimed (a b : Row) : Bool :=
  decide (availOf b < availOf a ∨
    (availOf a = availOf b ∧
      (b.earned < a.earned ∨ (a.earned = b.earned ∧ a.user_id ≤ b.user_id))))

/-- The listing in the order claim C8 asserts. -/
def claimed_rows (s : Store) : List Row :=
  sortBy cmpClaimed (baseRows s)

/-- Observation: the credited flag of the edge mark_credited would read for
this referee (false when no edge exists). -/
def creditedFor (s : Store) (x : Int) : Bool :=
  match s.referrals.find? (fun r => r.referee_id == x) with
  | some r => r.credited
  | none => false

/-- The store-mutating core operations reachable from the handlers, used to
state invariants over arbitrary operation sequences. -/
inductive Op
  | upsert (uid : Int) (uname : String)
  | pending (referrer_id referee_id : Int)
  | credit (referee_id : Int)
  | redeem (uid : Int) (code : String)

def applyOp : Op → Store → Store
  | .upsert uid un, s => upsert_user s uid un
  | .pending a x, s => add_pending_referral s a x
  | .credit x, s => (mark_credited s x).2
  | .redeem uid c, s => (cb_redeem s uid c).2

def applyOps (ops : List Op) (s : Store) : Store :=
  ops.foldl (fun t op => applyOp op t) s

/-- Modelled from the spec (section 3): earned is the count of edges with
this referrer and credited = true. Stated in the words of the spec, to be
compared with get_earned. -/
def earnedSpec (s : Store) (u : Int) : Int :=
  Int.ofNat ((s.referrals.filter
    (fun e => e.referrer_id == u && e.credited == true)).length)

/-- Modelled from the spec (section 3): spent is the sum of cost over the
redemption records of the user. -/
def spentSpec (s : Store) (u : Int) : Int :=
  ((s.redemptions.filter (fun r => r.user_id == u)).map (fun r => r.cost)).sum

/-- Modelled from the spec (section 3): available is earned minus spent,
floored at zero. -/
def availableSpec (s : Store) (u : Int) : Int :=
  max 0 (earnedSpec s u - spentSpec s u)

/-- A store with one pending edge, referrer 1001, referee 2002. -/
def sC1 : Store :=
  { users := [], referrals := [⟨1001, 2002, false⟩], redemptions := [] }

/-- User 1 with four credited referrals and one vip1 redemption of cost 2:
available is 2, which covers the cost of vip1. -/
def sC2 : Store :=
  { users := [⟨1, "alice"⟩],
    referrals := [⟨1, 10, true⟩, ⟨1, 11, true⟩, ⟨1, 12, true⟩, ⟨1, 13, true⟩],
    redemptions := [⟨1, "vip1", 2⟩] }

/-- User 1 with four credited referrals and no redemption yet. -/
def sC3 : Store :=
  { users := [⟨1, "alice"⟩],
    referrals := [⟨1, 10, true⟩, ⟨1, 11, true⟩, ⟨1, 12, true⟩, ⟨1, 13, true⟩],
    redemptions := [] }

/-- Two users: user 1 with nothing, user 2 with one credited referral and a
redemption of cost 2, so raw balance -1 but available 0 and earned 1. -/
def sC8 : Store :=
  { users := [⟨1, ""⟩, ⟨2, ""⟩],
    referrals := [⟨2, 99, true⟩],
    redemptions := [⟨2, "vip1", 2⟩] }

/-- One user with a mixed-case handle. -/
def sC9 : Store :=
  { users := [⟨7, "Bob"⟩], referrals := [], redemptions := [] }

/-! Helper lemmas about the stable sort and list scans. -/

theorem mem_ordInsert {α : Type} (le : α → α → Bool) (x : α) (l : List α) (a : α) :
    a ∈ ordInsert le x l ↔ a = x ∨ a ∈ l := by
  induction l with
  | nil => simp [ordInsert]
  | cons b t ih =>
    by_cases h : le x b = true
    · simp [ordInsert, h]
    · simp only [ordInsert, h, if_neg]
      simp [ih]
      tauto

theorem mem_sortBy {α : Type} (le : α → α → Bool) (l : List α) (a : α) :
    a ∈ sortBy le l ↔ a ∈ l := by
  induction l with
  | nil => simp [sortBy]
  | cons b t ih =>
    simp [sortBy, mem_ordInsert, ih]

theorem ordInsert_congr {α : Type} (le le' : α → α → Bool) (x : α) (l : List α)
    (h : ∀ b ∈ l, le x b = le' x b) :
    ordInsert le x l = ordInsert le' x l := by
  induction l with
  | nil => rfl
  | cons b t ih =>
    have hb : le x b = le' x b := h b (by simp)
    by_cases hxb : le x b = true
    · simp [ordInsert, hxb, hb ▸ hxb]
    · have hxb' : le' x b = false := by
        rw [← hb]; exact Bool.eq_false_iff.mpr hxb
      simp only [ordInsert, hxb, if_neg, hxb', Bool.false_eq_true, if_false]
      rw [ih (fun c hc => h c (by simp [hc]))]

theorem sortBy_congr {α : Type} (le le' : α → α → Bool) (l : List α)
    (h : ∀ a ∈ l, ∀ b ∈ l, le a b = le' a b) :
    sortBy le l = sortBy le' l := by
  induction l with
  | nil => rfl
  | cons a t ih =>
    have ht : sortBy le t = sortBy le' t :=
      ih (fun x hx y hy => h x (by simp [hx]) y (by simp [hy]))
    simp only [sortBy, ht]
    exact ordInsert_congr le le' a (sortBy le' t) (fun b hb =>
      h a (by simp) b (by simp [(mem_sortBy le' t b).mp hb]))

theorem pairwise_ordInsert {α : Type} (le : α → α → Bool)
    (htot : ∀ a b, le a b = true ∨ le b a = true)
    (htrans : ∀ a b c, le a b = true → le b c = true → le a c = true)
    (x : α) (l : List α) (hl : l.Pairwise (fun a b => le a b = true)) :
    (ordInsert le x l).Pairwise (fun a b => le a b = true) := by
  induction l with
  | nil => simp [ordInsert]
  | cons b t ih =>
    rcases List.pairwise_cons.mp hl with ⟨hb, ht⟩
    by_cases hxb : le x b = true
    · simp only [ordInsert, hxb, if_true]
      refine List.pairwise_cons.mpr ⟨?_, hl⟩
      intro c hc
      rcases List.mem_cons.mp hc with rfl | hct
      · exact hxb
      · exact htrans x b c hxb (hb c hct)
    · simp only [ordInsert, hxb, if_false]
      refine List.pairwise_cons.mpr ⟨?_, ih ht⟩
      intro c hc
      rcases (mem_ordInsert le x t c).mp hc with rfl | hct
      · rcases htot b c with h | h
        · exact h
        · exact absurd h hxb
      · exact hb c hct

theorem sorted_sortBy {α : Type} (le : α → α → Bool)
    (htot : ∀ a b, le a b = true ∨ le b a = true)
    (htrans : ∀ a b c, le a b = true → le b c = true → le a c = true)
    (l : List α) :
    (sortBy le l).Pairwise (fun a b => le a b = true) := by
  induction l with
  | nil => simp [sortBy]
  | cons a t ih => exact pairwise_ordInsert le htot htrans a (sortBy le t) ih

/-- The users scan is ordered by user_id ascending. -/
theorem usersByRowid_sorted (s : Store) :
    (usersByRowid s).Pairwise (fun a b => a.user_id ≤ b.user_id) := by
  have h := sorted_sortBy (fun a b : UserRow => decide (a.user_id ≤ b.user_id))
    (fun a b => by
      by_cases h : a.user_id ≤ b.user_id
      · exact Or.inl (by simpa using h)
      · exact Or.inr (by simp; omega))
    (fun a b c hab hbc => by
      simp only [decide_eq_true_eq] at hab hbc ⊢
      omega)
    s.users
  exact h.imp (fun hab => by simpa using hab)

/-- The joined rows inherit the user_id ordering of the scan. -/
theorem baseRows_sorted (s : Store) :
    (baseRows s).Pairwise (fun a b => a.user_id ≤ b.user_id) := by
  unfold baseRows
  rw [List.pairwise_map]
  exact usersByRowid_sorted s

/-- Every joined row carries the raw balance earned minus spent. -/
theorem baseRows_balance (s : Store) :
    ∀ r ∈ baseRows s, r.balance = r.earned - r.spent := by
  intro r hr
  rcases List.mem_map.mp hr with ⟨u, hu, rfl⟩
  rfl

/-- Pointwise, the two-key export comparison and the three-key table
comparison agree on rows already in user_id order. -/
theorem cmpExport_eq_cmpTable (a b : Row) (h : a.user_id ≤ b.user_id) :
    cmpExport a b = cmpTable a b := by
  unfold cmpExport cmpTable
  rw [decide_eq_decide]
  constructor
  · intro hab
    rcases hab with h1 | ⟨h1, h2⟩
    · exact Or.inl h1
    · refine Or.inr ⟨h1, ?_⟩
      omega
  · intro hab
    rcases hab with h1 | ⟨h1, h2⟩
    · exact Or.inl h1
    · refine Or.inr ⟨h1, ?_⟩
      omega

/-- Stability argument: on a list already in user_id order, the stable sort
by the two export keys equals the stable sort by the three table keys; the
missing user_id key is supplied by the scan order that ties preserve. -/
theorem sortBy_export_eq_table (l : List Row)
    (h : l.Pairwise (fun a b => a.user_id ≤ b.user_id)) :
    sortBy cmpExport l = sortBy cmpTable l := by
  induction l with
  | nil => rfl
  | cons a t ih =>
    rcases List.pairwise_cons.mp h with ⟨ha, ht⟩
    simp only [sortBy]
    rw [ih ht]
    exact ordInsert_congr cmpExport cmpTable a (sortBy cmpTable t) (fun b hb =>
      cmpExport_eq_cmpTable a b (ha b ((mem_sortBy cmpTable t b).mp hb)))

/-- Pointwise, the claimed available-based comparison agrees with the table
comparison on rows whose raw balance is the nonnegative earned minus spent. -/
theorem cmpClaimed_eq_cmpTable (a b : Row)
    (hA : a.balance = a.earned - a.spent) (h0a : 0 ≤ a.balance)
    (hB : b.balance = b.earned - b.spent) (h0b : 0 ≤ b.balance) :
    cmpClaimed a b = cmpTable a b := by
  have ha : availOf a = a.balance := by unfold availOf; omega
  have hb : availOf b = b.balance := by unfold availOf; omega
  unfold cmpClaimed cmpTable
  rw [ha, hb]

/-! Helper lemmas about the ledger operations. -/

theorem upsert_user_referrals (s : Store) (uid : Int) (uname : String) :
    (upsert_user s uid uname).referrals = s.referrals := by
  unfold upsert_user
  split <;> rfl

theorem cb_redeem_f_referrals (fault : Bool) (s : Store) (uid : Int) (code : String) :
    (cb_redeem_f fault s uid code).2.referrals = s.referrals := by
  unfold cb_redeem_f
  cases lookupReward code with
  | none => rfl
  | some rwd =>
    dsimp only
    split
    · rfl
    · split
      · rfl
      · split
        · rfl
        · rfl

theorem creditedFor_add_pending (s : Store) (a x y : Int)
    (h : creditedFor s y = true) :
    creditedFor (add_pending_referral s a x) y = true := by
  unfold add_pending_referral
  split
  · exact h
  · split
    · exact h
    · unfold creditedFor at h ⊢
      dsimp only
      rw [List.find?_append]
      cases hf : s.referrals.find? (fun r => r.referee_id == y) with
      | none => rw [hf] at h; cases h
      | some r =>
        rw [hf] at h
        simp only [Option.or_some]
        exact h

theorem find?_map_setCredited (l : List Referral) (x y : Int) :
    (l.map (fun r =>
        if r.referee_id == y then { r with credited := true } else r)).find?
          (fun r => r.referee_id == x)
      = (l.find? (fun r => r.referee_id == x)).map
          (fun r => if r.referee_id == y then { r with credited := true } else r) := by
  induction l with
  | nil => rfl
  | cons r t ih =>
    have hkeep :
        ((if r.referee_id == y then { r with credited := true } else r) :
          Referral).referee_id = r.referee_id := by
      split <;> rfl
    rw [List.map_cons, List.find?_cons, List.find?_cons, hkeep]
    cases hp : r.referee_id == x with
    | true => rfl
    | false => exact ih

theorem creditedFor_mc_phase2 (s : Store) (x y : Int)
    (h : creditedFor s y = true) :
    creditedFor (mc_phase2 s x) y = true := by
  unfold creditedFor at h ⊢
  unfold mc_phase2
  dsimp only
  rw [find?_map_setCredited]
  cases hf : s.referrals.find? (fun r => r.referee_id == y) with
  | none => rw [hf] at h; cases h
  | some r =>
    rw [hf] at h
    simp only [Option.map_some']
    split
    · rfl
    · exact h

theorem creditedFor_applyOp (op : Op) (s : Store) (x : Int)
    (h : creditedFor s x = true) :
    creditedFor (applyOp op s) x = true := by
  cases op with
  | upsert uid un =>
    unfold creditedFor at h ⊢
    rw [applyOp, upsert_user_referrals]
    exact h
  | pending a y =>
    exact creditedFor_add_pending s a y x h
  | credit y =>
    rw [applyOp]
    unfold mark_credited
    cases mc_phase1 s y with
    | none => exact h
    | some rid => exact creditedFor_mc_phase2 s y x h
  | redeem uid c =>
    unfold creditedFor at h ⊢
    rw [applyOp]
    unfold cb_redeem
    rw [cb_redeem_f_referrals]
    exact h

/-! Claim theorems. -/

/-- C7: for every user and every store state, getBalance returns the triple
(earned, spent, available) with earned the count of credited edges of the
referrer, spent the sum of redemption costs of the user, and available the
difference floored at zero, exactly as the spec derives them; the operation
is a pure function of the store and has no side effects. -/
theorem C7_getBalance_spec (s : Store) (u : Int) :
    get_balance s u = (earnedSpec s u, spentSpec s u, availableSpec s u) := by
  have he : get_earned s u = earnedSpec s u := by
    have hfun : (fun e : Referral => e.referrer_id == u && (e.credited == true))
        = (fun e : Referral => e.referrer_id == u && e.credited) := by
      funext e
      cases hc : e.credited <;> simp [hc]
    unfold get_earned earnedSpec
    rw [hfun, List.countP_eq_length_filter]
  unfold get_balance availableSpec
  rw [he]
  rfl

/-- C5: a single sequential creditReferee call returns nothing and leaves
the store unchanged when no edge exists for the referee or when the edge is
already credited; otherwise it returns the referrer id and flips the
credited flag; and across any sequence of core operations a credited flag
never transitions back to false. -/
theorem C5_creditReferee_semantics :
    (∀ s x, s.referrals.find? (fun r => r.referee_id == x) = none →
      mark_credited s x = (none, s)) ∧
    (∀ s x r, s.referrals.find? (fun r => r.referee_id == x) = some r →
      r.credited = true → mark_credited s x = (none, s)) ∧
    (∀ s x r, s.referrals.find? (fun r => r.referee_id == x) = some r →
      r.credited = false →
      mark_credited s x = (some r.referrer_id, mc_phase2 s x)) ∧
    (∀ ops s x, creditedFor s x = true → creditedFor (applyOps ops s) x = true) := by
  refine ⟨?_, ?_, ?_, ?_⟩
  · intro s x h
    unfold mark_credited mc_phase1
    rw [h]
  · intro s x r h hc
    unfold mark_credited mc_phase1
    rw [h]
    simp [hc]
  · intro s x r h hc
    unfold mark_credited mc_phase1
    rw [h]
    simp [hc]
  · intro ops
    induction ops with
    | nil => intro s x h; exact h
    | cons op t ih =>
      intro s x h
      exact ih (applyOp op s) x (creditedFor_applyOp op s x h)

/-- Witness for C5: on the store with the single pending edge 1001 to 2002,
crediting 2002 returns 1001 and flips the flag. -/
theorem C5_creditReferee_semantics_witness :
    mark_credited sC1 2002 = (some 1001, mc_phase2 sC1 2002) :=
  C5_creditReferee_semantics.2.2.1 sC1 2002 ⟨1001, 2002, false⟩
    (by decide) (by decide)

/-- C6: recordPendingReferral is a no-op on self referral and when any edge
for the referee exists; otherwise it appends exactly one uncredited edge;
and after two referral attempts for the same referee, crediting returns the
first-touch referrer. -/
theorem C6_recordPendingReferral_semantics :
    (∀ s a, add_pending_referral s a a = s) ∧
    (∀ s a x, s.referrals.any (fun r => r.referee_id == x) = true →
      add_pending_referral s a x = s) ∧
    (∀ s a x, a ≠ x → s.referrals.any (fun r => r.referee_id == x) = false →
      add_pending_referral s a x =
        { s with referrals := s.referrals ++ [⟨a, x, false⟩] }) ∧
    (∀ s a b x, a ≠ x → s.referrals.any (fun r => r.referee_id == x) = false →
      (mark_credited
        (add_pending_referral (add_pending_referral s a x) b x) x).1 = some a) := by
  have happend : ∀ (s : Store) (a x : Int), a ≠ x →
      s.referrals.any (fun r => r.referee_id == x) = false →
      add_pending_referral s a x =
        { s with referrals := s.referrals ++ [⟨a, x, false⟩] } := by
    intro s a x hax hany
    unfold add_pending_referral
    rw [if_neg (by simp [hax]), if_neg (by simp [hany])]
  refine ⟨?_, ?_, happend, ?_⟩
  · intro s a
    unfold add_pending_referral
    simp
  · intro s a x h
    unfold add_pending_referral
    by_cases hax : (a == x) = true
    · rw [if_pos hax]
    · rw [if_neg hax, if_pos h]
  · intro s a b x hax hany
    rw [happend s a x hax hany]
    have h2 : add_pending_referral
        { s with referrals := s.referrals ++ [⟨a, x, false⟩] } b x =
        { s with referrals := s.referrals ++ [⟨a, x, false⟩] } := by
      unfold add_pending_referral
      split
      · rfl
      · rw [if_pos (by simp)]
    rw [h2]
    have hnone : s.referrals.find? (fun r => r.referee_id == x) = none := by
      rw [List.find?_eq_none]
      rw [List.any_eq_false] at hany
      exact hany
    unfold mark_credited mc_phase1
    dsimp only
    rw [List.find?_append, hnone]
    simp

/-- Witness for C6: starting from the empty store, 1001 refers 2002, a later
attempt by 3003 for the same referee is ignored, and crediting 2002 pays
1001. -/
theorem C6_recordPendingReferral_semantics_witness :
    (mark_credited
      (add_pending_referral
        (add_pending_referral ⟨[], [], []⟩ 1001 2002) 3003 2002) 2002).1
      = some 1001 :=
  C6_recordPendingReferral_semantics.2.2.2 ⟨[], [], []⟩ 1001 3003 2002
    (by decide) (by decide)

/-- C10: when the first start argument parses to the integer 0, the handler
records no pending referral: its whole store effect is the identity upsert,
because the truthiness test on the parsed referrer id treats 0 like an
absent reference. -/
theorem C10_zero_referrer_dropped (s : Store) (uid : Int) (uname : String)
    (a : String) (rest : List String) (h : pyInt? (pyLower a) = some 0) :
    start_effect s uid uname (a :: rest) = upsert_user s uid uname ∧
    (start_effect s uid uname (a :: rest)).referrals = s.referrals := by
  have hmain : start_effect s uid uname (a :: rest) = upsert_user s uid uname := by
    show (if pyLower a = "points" then upsert_user s uid uname
      else
        match pyInt? (pyLower a) with
        | some rid =>
          if rid ≠ 0 then add_pending_referral (upsert_user s uid uname) rid uid
          else upsert_user s uid uname
        | none => upsert_user s uid uname) = upsert_user s uid uname
    by_cases hp : pyLower a = "points"
    · rw [if_pos hp]
    · rw [if_neg hp, h]
      simp
  exact ⟨hmain, by rw [hmain, upsert_user_referrals]⟩

/-- Witness for C10: argument list with the literal "0" leaves the referral
table empty for a user with id 5. -/
theorem C10_zero_referrer_dropped_witness :
    start_effect ⟨[], [], []⟩ 5 "eve" ["0"] = upsert_user ⟨[], [], []⟩ 5 "eve" :=
  (C10_zero_referrer_dropped ⟨[], [], []⟩ 5 "eve" "0" [] (by decide)).1

/-- C2 (amended): redeem fails with UnknownReward for codes outside the
catalog; then with AlreadyRedeemed when the entry is non-repeatable and a
record exists; then with InsufficientBalance carrying needed = cost and the
current available value; otherwise, when no record for (user, code) exists,
it inserts exactly one record with that cost and returns the payload
verbatim; but when a record exists (reachable here only for repeatable
entries) the insert trips the unconditional uniqueness constraint and the
call ends in the insert-conflict reply with the store unchanged. -/
theorem C2_redeem_checks (s : Store) (uid : Int) (code : String) :
    (lookupReward code = none → cb_redeem s uid code = (.unknownReward, s)) ∧
    (∀ rwd, lookupReward code = some rwd →
      hasRedemption s uid code = true → rwd.repeatable = false →
      cb_redeem s uid code = (.alreadyRedeemed, s)) ∧
    (∀ rwd, lookupReward code = some rwd →
      (hasRedemption s uid code = false ∨ rwd.repeatable = true) →
      (get_balance s uid).2.2 < rwd.cost →
      cb_redeem s uid code =
        (.insufficientBalance rwd.cost ((get_balance s uid).2.2), s)) ∧
    (∀ rwd, lookupReward code = some rwd →
      hasRedemption s uid code = false →
      rwd.cost ≤ (get_balance s uid).2.2 →
      cb_redeem s uid code =
        (.success rwd.payload,
         { s with redemptions := s.redemptions ++ [⟨uid, code, rwd.cost⟩] })) ∧
    (∀ rwd, lookupReward code = some rwd →
      hasRedemption s uid code = true → rwd.repeatable = true →
      rwd.cost ≤ (get_balance s uid).2.2 →
      cb_redeem s uid code = (.insertConflict, s)) := by
  refine ⟨?_, ?_, ?_, ?_, ?_⟩
  · intro h
    unfold cb_redeem cb_redeem_f
    rw [h]
  · intro rwd hl hx hrep
    unfold cb_redeem cb_redeem_f
    rw [hl]
    simp [hx, hrep]
  · intro rwd hl hor hb
    unfold cb_redeem cb_redeem_f
    rw [hl]
    rcases hor with hx | hrep
    · simp [hx, hb]
    · simp [hrep, hb]
  · intro rwd hl hx hc
    unfold cb_redeem cb_redeem_f
    rw [hl]
    simp [hx, not_lt.mpr hc]
  · intro rwd hl hx hrep hc
    unfold cb_redeem cb_redeem_f
    rw [hl]
    simp [hx, hrep, not_lt.mpr hc]

/-- Witness for C2: a first vip1 redemption with four credited referrals
succeeds, appends one record of cost 2 and returns the payload. -/
theorem C2_redeem_checks_witness :
    cb_redeem sC3 1 "vip1" =
      (.success "https://t.me/lexxis00",
       { sC3 with redemptions := sC3.redemptions ++ [⟨1, "vip1", 2⟩] }) :=
  (C2_redeem_checks sC3 1 "vip1").2.2.2.1
    { label := "🎁 Unlock VIP Pack (2 points)",
      cost := 2,
      payload := "https://t.me/lexxis00",
      repeatable := true }
    (by decide) (by decide) (by decide)

/-- Counterexample to C2 as stated: vip1 is in the catalog and repeatable,
a record exists, and available (2) covers the cost (2), so the claim
demands an insert and the payload; the code instead hits the uniqueness
constraint, replies with the insert-conflict message and inserts nothing. -/
theorem C2_counterexample :
    lookupReward "vip1" =
      some { label := "🎁 Unlock VIP Pack (2 points)", cost := 2,
             payload := "https://t.me/lexxis00", repeatable := true } ∧
    hasRedemption sC2 1 "vip1" = true ∧
    2 ≤ (get_balance sC2 1).2.2 ∧
    cb_redeem sC2 1 "vip1" = (.insertConflict, sC2) := by decide

/-- C3 evidence: from four credited referrals and no redemptions, a first
redeem of the repeatable vip1 succeeds with one record; the balance (2)
still covers the cost, yet the second redeem is stopped by the
UNIQUE(user_id, reward_code) constraint: it ends in the insert-conflict
reply and the record count stays at one, so repeatable entries can never
accumulate a second record. -/
theorem C3_repeatable_second_redeem_blocked :
    (cb_redeem sC3 1 "vip1").1 = .success "https://t.me/lexxis00" ∧
    (cb_redeem sC3 1 "vip1").2.redemptions.length = 1 ∧
    2 ≤ (get_balance (cb_redeem sC3 1 "vip1").2 1).2.2 ∧
    (cb_redeem (cb_redeem sC3 1 "vip1").2 1 "vip1").1 = .insertConflict ∧
    (cb_redeem (cb_redeem sC3 1 "vip1").2 1 "vip1").2.redemptions.length = 1 := by
  decide

/-- C4 (amended): any exception at the commit, a uniqueness violation or
any other storage fault, is caught by the blanket except handler and
reported with the same insert-conflict (already-redeemed) reply; it never
changes the store, never yields a success, and never escapes the handler to
kill the process. In particular a run that would have succeeded without a
fault ends in the insert-conflict reply when a fault strikes the insert. -/
theorem C4_insert_fault_handling (s : Store) (uid : Int) (code : String) :
    (cb_redeem_f true s uid code).2 = s ∧
    (∀ p, (cb_redeem_f true s uid code).1 ≠ .success p) ∧
    (∀ p, (cb_redeem s uid code).1 = .success p →
      (cb_redeem_f true s uid code).1 = .insertConflict) := by
  unfold cb_redeem cb_redeem_f
  cases h : lookupReward code with
  | none => exact ⟨rfl, fun p => by simp, fun p hp => by simp at hp⟩
  | some rwd =>
    dsimp only
    by_cases h1 : (hasRedemption s uid code && !rwd.repeatable) = true
    · simp [h1]
    · by_cases h2 : (get_balance s uid).2.2 < rwd.cost
      · simp [h1, h2]
      · simp [h1, h2]

/-- Witness for C4: on the store where a fault-free vip1 redemption
succeeds, injecting a storage fault at the insert produces the
insert-conflict reply. -/
theorem C4_insert_fault_handling_witness :
    (cb_redeem_f true sC3 1 "vip1").1 = .insertConflict :=
  (C4_insert_fault_handling sC3 1 "vip1").2.2 "https://t.me/lexxis00" (by decide)

/-- Counterexample to C4 as stated: a non-uniqueness storage fault at the
commit (fault run on a store with no record for the user) is reported with
exactly the same outcome the genuine uniqueness conflict produces, not as a
distinct generic failure. -/
theorem C4_counterexample :
    (cb_redeem_f true sC3 1 "vip1").1 = .insertConflict ∧
    (cb_redeem sC2 1 "vip1").1 = .insertConflict ∧
    (cb_redeem_f true sC3 1 "vip1").1 = (cb_redeem sC2 1 "vip1").1 := by decide

/-- C8 (amended): the CSV export lists users in exactly the order of the
paginated table; that shared order is raw balance (earned minus spent, not
floored) descending, then earned descending, then user_id ascending, and it
coincides with the claimed available-descending order whenever no listed
user has spent more than they earned. -/
theorem C8_listing_order (s : Store) :
    exportcsv_rows s = table_rows s ∧
    ((∀ r ∈ baseRows s, 0 ≤ r.balance) → table_rows s = claimed_rows s) := by
  constructor
  · exact sortBy_export_eq_table (baseRows s) (baseRows_sorted s)
  · intro h
    unfold table_rows claimed_rows
    exact (sortBy_congr cmpClaimed cmpTable (baseRows s) (fun a ha b hb =>
      cmpClaimed_eq_cmpTable a b (baseRows_balance s a ha) (h a ha)
        (baseRows_balance s b hb) (h b hb))).symm

/-- Witness for C8: on the store with four credited referrals and no
redemptions all balances are nonnegative, so the table, the export and the
claimed order agree. -/
theorem C8_listing_order_witness :
    exportcsv_rows sC3 = table_rows sC3 ∧ table_rows sC3 = claimed_rows sC3 :=
  ⟨(C8_listing_order sC3).1, (C8_listing_order sC3).2 (by decide)⟩

/-- Counterexample to C8 as stated: with user 2 at raw balance -1 (earned 1,
spent 2) and user 1 at 0, the table (and hence the export) puts user 1
first, while the claimed order available desc, earned desc, user_id asc
puts user 2 first. -/
theorem C8_counterexample :
    (table_rows sC8).map (fun r => r.user_id) = [1, 2] ∧
    (claimed_rows sC8).map (fun r => r.user_id) = [2, 1] ∧
    table_rows sC8 ≠ claimed_rows sC8 := by decide

/-- C9 (amended): resolve returns nothing on the empty reference, on an
at-reference whose lowered handle matches no user, and on any other
reference that does not parse as an integer; an at-reference that matches
(case-insensitively, first match in scan order) resolves to that user and
its label; a numeric reference always resolves, with the stored label when
a user row exists and the placeholder label otherwise, even for ids never
recorded in the identity store. -/
theorem C9_resolve_cases (s : Store) (arg : String) :
    (arg = "" → resolve_target_user s arg = none) ∧
    (arg ≠ "" → startsWithAt arg = true →
      (usersByRowid s).find?
          (fun u => pyLower u.username == pyLower (dropFirst arg)) = none →
      resolve_target_user s arg = none) ∧
    (∀ u, arg ≠ "" → startsWithAt arg = true →
      (usersByRowid s).find?
          (fun u => pyLower u.username == pyLower (dropFirst arg)) = some u →
      resolve_target_user s arg =
        some (u.user_id, userLabel u.username u.user_id)) ∧
    (arg ≠ "" → startsWithAt arg = false → pyInt? arg = none →
      resolve_target_user s arg = none) ∧
    (∀ uid u, arg ≠ "" → startsWithAt arg = false → pyInt? arg = some uid →
      (usersByRowid s).find? (fun v => v.user_id == uid) = some u →
      resolve_target_user s arg = some (uid, userLabel u.username uid)) ∧
    (∀ uid, arg ≠ "" → startsWithAt arg = false → pyInt? arg = some uid →
      (usersByRowid s).find? (fun v => v.user_id == uid) = none →
      resolve_target_user s arg = some (uid, "User " ++ toString uid)) := by
  refine ⟨?_, ?_, ?_, ?_, ?_, ?_⟩
  · intro h
    unfold resolve_target_user
    rw [if_pos h]
  · intro hne hat hf
    unfold resolve_target_user
    rw [if_neg hne, if_pos hat, hf]
  · intro u hne hat hf
    unfold resolve_target_user
    rw [if_neg hne, if_pos hat, hf]
  · intro hne hat hint
    unfold resolve_target_user
    rw [if_neg hne, if_neg (by rw [hat]; exact Bool.false_ne_true), hint]
  · intro uid u hne hat hint hf
    unfold resolve_target_user
    rw [if_neg hne, if_neg (by rw [hat]; exact Bool.false_ne_true), hint]
    dsimp only
    rw [hf]
  · intro uid hne hat hint hf
    unfold resolve_target_user
    rw [if_neg hne, if_neg (by rw [hat]; exact Bool.false_ne_true), hint]
    dsimp only
    rw [hf]
    unfold userLabel
    simp

/-- Witness for C9: the mixed-case reference resolves the stored handle Bob
case-insensitively with the at-label. -/
theorem C9_resolve_cases_witness :
    resolve_target_user sC9 "@bOb" = some (7, userLabel "Bob" 7) :=
  (C9_resolve_cases sC9 "@bOb").2.2.1 ⟨7, "Bob"⟩
    (by decide) (by decide) (by decide)

/-- Counterexample to C9 as stated: the numeric reference 42 matches no
user in the empty identity store, yet resolve returns the placeholder
instead of nothing. -/
theorem C9_counterexample :
    resolve_target_user ⟨[], [], []⟩ "42" = some (42, "User 42") ∧
    (⟨[], [], []⟩ : Store).users = [] := by decide

/-- C1 evidence: on the store with the single pending edge 1001 to 2002,
the read-read-write-write interleaving of two concurrent creditReferee
calls makes both callers observe the non-empty referrer 1001 (the claim
allows exactly one), while earned(1001) still rises by exactly one since
both updates set the same row. -/
theorem C1_concurrent_double_observe :
    (mark_credited_concurrent_RRWW sC1 2002).1 = some 1001 ∧
    (mark_credited_concurrent_RRWW sC1 2002).2.1 = some 1001 ∧
    get_earned (mark_credited_concurrent_RRWW sC1 2002).2.2 1001 = 1 ∧
    get_earned sC1 1001 = 0 := by decide
